import Mathlib

/-!
Verification of the rust-udp-relay Source-Engine-Query client.

The repository has two near-duplicate implementations:
  * src/server.js        - class SourceQuery with getServerInfo / getPlayers /
                           parseServerInfo / parsePlayerInfo and a /query-batch handler
  * src/unnamed/part_000 - class SourceQuery with queryServer / queryPlayers /
                           parseA2SInfo / parseA2SPlayers and a /query-batch handler

Buffers are modelled as `List Nat` (one element per byte).  Wherever the
code's behaviour depends on the JavaScript string decoded from a buffer slice
with `toString('utf8')` - part_000's offset arithmetic
`offset += name.length + 1` (a UTF-16 length), the name values stored by both
player parsers, `name.trim()` and the non-empty-name filter - the decoded
string is modelled as its list of UTF-16 code units via `utf16Units`, the
WHATWG UTF-8 decoder (maximal-subpart U+FFFD replacement, surrogate pairs for
astral code points), which is what Node's Buffer.toString('utf8') implements.
server.js `parseServerInfo` and `readString` track offsets directly in bytes,
so its string record fields are kept as the raw byte slices; every concrete
string value compared in a theorem is ASCII, where bytes and code units
coincide.  A 32-bit float read by
`readFloatLE` is modelled by its little-endian IEEE-754 bit pattern: the code
never does float arithmetic, it only stores the value and (in server.js) tests
its JavaScript truthiness (`duration || 0`), which depends only on the pattern
(falsy exactly for +0, -0 and NaN).
-/

instance {ε α : Type} [DecidableEq ε] [DecidableEq α] : DecidableEq (Except ε α) :=
  fun a b =>
    match a, b with
    | .ok x, .ok y =>
      if h : x = y then isTrue (by rw [h])
      else isFalse (by intro hh; cases hh; exact h rfl)
    | .error e, .error f =>
      if h : e = f then isTrue (by rw [h])
      else isFalse (by intro hh; cases hh; exact h rfl)
    | .ok _, .error _ => isFalse (by intro hh; cases hh)
    | .error _, .ok _ => isFalse (by intro hh; cases hh)

/-- Byte of a buffer at index `i`; JavaScript `data[i]` yields `undefined` out of
range, which the code only ever uses in positions where `undefined` behaves
like "absent" (loop bounds / guarded reads), so the 0 default is only reached
in positions the theorems guard. -/
def byteD (data : List Nat) (i : Nat) : Nat :=
  data.getD i 0

/-- The zero-terminated string scan shared by both implementations
(server.js `readString`, lines 162-168; part_000 `readString`, lines 219-225):
scan from `offset` to the first 0 byte or the end of the buffer and return the
bytes in between. -/
def readStrBytes (data : List Nat) (offset : Nat) : List Nat :=
  (data.drop offset).takeWhile (fun b => b != 0)

/-- Little-endian 16-bit read (server.js line 172, `data.readUInt16LE`). -/
def readU16 (data : List Nat) (o : Nat) : Nat :=
  byteD data o + 256 * byteD data (o + 1)

/-- Little-endian 32-bit read as an unsigned bit pattern. -/
def le32 (data : List Nat) (o : Nat) : Nat :=
  byteD data o + 256 * byteD data (o + 1) + 65536 * byteD data (o + 2)
    + 16777216 * byteD data (o + 3)

/-- Two's-complement interpretation of a 32-bit pattern (`readInt32LE`). -/
def toInt32 (u : Nat) : Int :=
  if u % 4294967296 < 2147483648 then ((u % 4294967296 : Nat) : Int)
  else ((u % 4294967296 : Nat) : Int) - 4294967296

/-- Signed little-endian 32-bit read (server.js line 241, part_000 line 202). -/
def readI32 (data : List Nat) (o : Nat) : Int :=
  toInt32 (le32 data o)

/-- Little-endian 32-bit reads of a standalone 4-byte list (used to state the
expected value of a score / duration field of an encoded player entry). -/
def le32Of (l : List Nat) : Nat :=
  l.getD 0 0 + 256 * l.getD 1 0 + 65536 * l.getD 2 0 + 16777216 * l.getD 3 0

/-- Signed value of a standalone 4-byte list. -/
def int32Of (l : List Nat) : Int :=
  toInt32 (le32Of l)

/-- UTF-8 bytes of an ASCII string literal (all literals in this development
are pure ASCII, where the code-point list and the UTF-8 byte list agree). -/
def asciiBytes (s : String) : List Nat :=
  s.data.map Char.toNat

/-- Worker for `utf16Units`, structurally recursive on a fuel argument (one
unit of fuel per decoded item, so the list's length is always enough); this
keeps the definition kernel-reducible for `decide`.  Branches follow the
WHATWG UTF-8 decoder: ASCII passes through, 2-, 3- and 4-byte sequences check
their lead-byte-specific continuation ranges, every invalid or truncated
sequence yields one U+FFFD (65533) for its maximal subpart and reprocesses
the offending byte, and a decoded code point above U+FFFF yields its
surrogate pair. -/
def utf16Aux : Nat → List Nat → List Nat
  | 0, _ => []
  | _ + 1, [] => []
  | fuel + 1, b :: rest =>
    if b < 128 then b :: utf16Aux fuel rest
    else if 194 ≤ b ∧ b ≤ 223 then
      match rest with
      | [] => [65533]
      | c1 :: rest1 =>
        if 128 ≤ c1 ∧ c1 ≤ 191 then
          (b % 32 * 64 + c1 % 64) :: utf16Aux fuel rest1
        else 65533 :: utf16Aux fuel rest
    else if 224 ≤ b ∧ b ≤ 239 then
      match rest with
      | [] => [65533]
      | c1 :: rest1 =>
        if (if b = 224 then 160 else 128) ≤ c1 ∧ c1 ≤ (if b = 237 then 159 else 191) then
          match rest1 with
          | [] => [65533]
          | c2 :: rest2 =>
            if 128 ≤ c2 ∧ c2 ≤ 191 then
              (b % 16 * 4096 + c1 % 64 * 64 + c2 % 64) :: utf16Aux fuel rest2
            else 65533 :: utf16Aux fuel rest1
        else 65533 :: utf16Aux fuel rest
    else if 240 ≤ b ∧ b ≤ 244 then
      match rest with
      | [] => [65533]
      | c1 :: rest1 =>
        if (if b = 240 then 144 else 128) ≤ c1 ∧ c1 ≤ (if b = 244 then 143 else 191) then
          match rest1 with
          | [] => [65533]
          | c2 :: rest2 =>
            if 128 ≤ c2 ∧ c2 ≤ 191 then
              match rest2 with
              | [] => [65533]
              | c3 :: rest3 =>
                if 128 ≤ c3 ∧ c3 ≤ 191 then
                  (55296 + (b % 8 * 262144 + c1 % 64 * 4096 + c2 % 64 * 64 + c3 % 64 - 65536) / 1024)
                    :: (56320 + (b % 8 * 262144 + c1 % 64 * 4096 + c2 % 64 * 64 + c3 % 64 - 65536) % 1024)
                    :: utf16Aux fuel rest3
                else 65533 :: utf16Aux fuel rest2
            else 65533 :: utf16Aux fuel rest1
        else 65533 :: utf16Aux fuel rest
    else 65533 :: utf16Aux fuel rest

/-- The UTF-16 code units of the JavaScript string
`Buffer.from(bytes).toString('utf8')`: the faithful model of the decoded
strings whose `.length`, `.trim()` and truthiness the source uses. -/
def utf16Units (l : List Nat) : List Nat :=
  utf16Aux l.length l

/-- The code units removed by JavaScript `String.prototype.trim`: the
WhiteSpace production (TAB, VT, FF, SP, NBSP, ZWNBSP and the Unicode
space-separator category) plus the LineTerminator production (LF, CR, LS,
PS).  All of them are single UTF-16 code units. -/
def isJsWsUnit (u : Nat) : Bool :=
  u == 9 || u == 10 || u == 11 || u == 12 || u == 13 || u == 32
    || u == 160 || u == 5760 || (8192 ≤ u && u ≤ 8202) || u == 8232
    || u == 8233 || u == 8239 || u == 8287 || u == 12288 || u == 65279

/-- Model of `name.trim()` (server.js line 250) on the decoded string's code
units. -/
def jsTrim (l : List Nat) : List Nat :=
  ((l.dropWhile isJsWsUnit).reverse.dropWhile isJsWsUnit).reverse

/-- True for the bit patterns of 32-bit float NaN values. -/
def f32IsNaN (bits : Nat) : Bool :=
  (bits / 8388608) % 256 == 255 && bits % 8388608 != 0

/-- Model of `duration || 0` (server.js line 252): a JS number is falsy exactly
when it is +0, -0 or NaN, so the stored pattern is forced to +0 there. -/
def durNorm (bits : Nat) : Nat :=
  if bits == 0 || bits == 2147483648 || f32IsNaN bits then 0 else bits

/-- A parsed player entry.  `duration` is the IEEE-754 bit pattern of the
float (see the module comment). -/
structure PlayerEntry where
  index : Nat
  name : List Nat
  score : Int
  duration : Nat
deriving DecidableEq, Repr

/-- The record returned by server.js `parseServerInfo` (lines 194-202 list
exactly these seven fields; `folder`, `serverType` and `environment` are read
or skipped but not returned). -/
structure ServerInfoS where
  name : List Nat
  map : List Nat
  game : List Nat
  players : Nat
  maxPlayers : Nat
  bots : Nat
  appId : Nat
deriving DecidableEq, Repr

/-- The sentinel record produced by the catch block of server.js
`parseServerInfo` (lines 203-214). -/
def psSentinel : ServerInfoS :=
  { name := asciiBytes "Parse Error", map := asciiBytes "Unknown",
    game := asciiBytes "Unknown", players := 0, maxPlayers := 0,
    bots := 0, appId := 0 }

/-- server.js `parseServerInfo` (lines 154-215).  The only statement inside
the `try` that can throw is the explicit length check at line 183 (all byte
reads are guarded by it), so the function is modelled as: header failure
throws (`Except.error`), a short trailing block yields the catch-block
sentinel, and otherwise the parsed record with the `|| default` fallbacks of
lines 195-201 (the numeric `|| 0` fallbacks are identities on numbers already
read, only the string fallbacks are observable). -/
def parseServerInfo (data : List Nat) : Except String ServerInfoS :=
  if data.length < 6 ∨ byteD data 4 ≠ 73 then
    Except.error "Invalid server info response"
  else
    let name := readStrBytes data 6
    let o1 := 6 + name.length + 1
    let map := readStrBytes data o1
    let o2 := o1 + map.length + 1
    let folder := readStrBytes data o2
    let o3 := o2 + folder.length + 1
    let game := readStrBytes data o3
    let o4 := o3 + game.length + 1
    if o4 + 7 > data.length then Except.ok psSentinel
    else
      Except.ok
        { name := if name.isEmpty then asciiBytes "Unknown Server" else name,
          map := if map.isEmpty then asciiBytes "Unknown Map" else map,
          game := if game.isEmpty then asciiBytes "Unknown Game" else game,
          players := byteD data (o4 + 2),
          maxPlayers := byteD data (o4 + 3),
          bots := byteD data (o4 + 4),
          appId := readU16 data o4 }

/-- Offset just past the four zero-terminated strings read by server.js
`parseServerInfo` starting at offset 6 (name, map, folder, game). -/
def infoStrEnd (data : List Nat) : Nat :=
  let o1 := 6 + (readStrBytes data 6).length + 1
  let o2 := o1 + (readStrBytes data o1).length + 1
  let o3 := o2 + (readStrBytes data o2).length + 1
  o3 + (readStrBytes data o3).length + 1

/-- The record returned by part_000 `parseA2SInfo` (lines 147-181).  The short
branch at line 180 returns an object without the `protocol`, `serverType` and
`environment` properties, modelled with `Option`. -/
structure A2SInfo where
  name : List Nat
  map : List Nat
  folder : List Nat
  game : List Nat
  players : Nat
  maxPlayers : Nat
  protocol : Option Nat
  serverType : Option Nat
  environment : Option Nat
deriving DecidableEq, Repr

/-- part_000 `parseA2SInfo` (lines 147-181): no header or type-tag validation.
`readString` scans the buffer's bytes from the offset to the first zero byte
(lines 219-225) and returns the decoded string; the caller then advances by
`name.length + 1` - the decoded string's UTF-16 length (lines 151-161) - so
each offset here adds `(utf16Units bytes).length`, not the byte count.  The
numeric block is read only if a full 8 bytes remain past the advanced
offset; none of its operations can throw, so it is a total function. -/
def parseA2SInfo (buffer : List Nat) : A2SInfo :=
  let name := utf16Units (readStrBytes buffer 5)
  let o1 := 5 + name.length + 1
  let map := utf16Units (readStrBytes buffer o1)
  let o2 := o1 + map.length + 1
  let folder := utf16Units (readStrBytes buffer o2)
  let o3 := o2 + folder.length + 1
  let game := utf16Units (readStrBytes buffer o3)
  let o4 := o3 + game.length + 1
  if o4 + 8 ≤ buffer.length then
    { name := name, map := map, folder := folder, game := game,
      players := byteD buffer (o4 + 2), maxPlayers := byteD buffer (o4 + 3),
      protocol := some (byteD buffer (o4 + 1)),
      serverType := some (byteD buffer (o4 + 4)),
      environment := some (byteD buffer (o4 + 5)) }
  else
    { name := name, map := map, folder := folder, game := game,
      players := 0, maxPlayers := 0,
      protocol := none, serverType := none, environment := none }

/-- part_000 `queryServer` wraps `parseA2SInfo` in try/catch (lines 47-52);
since the parser cannot throw, the query's parse step always yields the
success branch. -/
def parseA2SInfoRes (msg : List Nat) : Except String A2SInfo :=
  Except.ok (parseA2SInfo msg)

/-- Loop of server.js `parsePlayerInfo` (lines 228-255): fuel is the count
byte, each iteration requires `offset < data.length`, reads the index byte
and scans the zero-terminated name directly in bytes (the `offset` variable
is advanced by the byte scan at lines 234-237, unlike part_000), breaks
(dropping everything from there on) when fewer than 8 bytes remain, and
pushes the entry - decoded trimmed name, `|| 0`-normalised score and
duration - only when the decoded raw name is non-empty (line 247). -/
def parsePlayersLoop (data : List Nat) : Nat → Nat → List PlayerEntry
  | 0, _ => []
  | n + 1, offset =>
    if offset < data.length then
      let index := byteD data offset
      let nameB := readStrBytes data (offset + 1)
      let o2 := offset + 1 + nameB.length + 1
      if o2 + 8 > data.length then []
      else
        let nameU := utf16Units nameB
        let score := readI32 data o2
        let dur := durNorm (le32 data (o2 + 4))
        let rest := parsePlayersLoop data n (o2 + 8)
        if nameU.isEmpty then rest
        else { index := index, name := jsTrim nameU, score := score,
               duration := dur } :: rest
    else []

/-- server.js `parsePlayerInfo` (lines 217-261): header check (length and the
0x44 tag at offset 4), count byte read at offset 6, entries parsed from
offset 7.  Nothing inside its `try` can throw (all reads are guarded), so the
catch block is unreachable. -/
def parsePlayerInfo (data : List Nat) : Except String (List PlayerEntry) :=
  if data.length < 6 ∨ byteD data 4 ≠ 68 then
    Except.error "Invalid player info response"
  else
    Except.ok (parsePlayersLoop data (byteD data 6) 7)

/-- Loop of part_000 `parseA2SPlayers` (lines 192-214): unlike server.js it
advances past a name by the decoded string's UTF-16 length plus one
(`offset += name.length + 1`, line 199, with `name` the decoded string of
the byte scan), stores the decoded name untrimmed and unfiltered, keeps
score and duration as read, and a truncated entry does not break - the loop
continues at the offset after the name. -/
def parseA2SPlayersLoop (buffer : List Nat) : Nat → Nat → List PlayerEntry
  | 0, _ => []
  | n + 1, offset =>
    if offset < buffer.length then
      let index := byteD buffer offset
      let nameU := utf16Units (readStrBytes buffer (offset + 1))
      let o2 := offset + 1 + nameU.length + 1
      if o2 + 8 ≤ buffer.length then
        { index := index, name := nameU, score := readI32 buffer o2,
          duration := le32 buffer (o2 + 4) } :: parseA2SPlayersLoop buffer n (o2 + 8)
      else
        parseA2SPlayersLoop buffer n o2
    else []

/-- part_000 `parseA2SPlayers` (lines 183-217): buffers shorter than 6 bytes
yield an empty list (no error), the count byte is at offset 5 and entries
start at offset 6.  No type tag is checked. -/
def parseA2SPlayers (buffer : List Nat) : List PlayerEntry :=
  if buffer.length < 6 then []
  else parseA2SPlayersLoop buffer (byteD buffer 5) 6

/-! ## Event-trace model of the two-phase player query

Each `getPlayers` / `queryPlayers` call installs a set of callbacks on one
fresh UDP socket.  The call is modelled as a state machine consuming a list of
external events (datagram arrival, the timeout timer firing, a socket error,
a send callback invoked with an error) and emitting a list of observable
actions.  The promise's value is the first settle action in the emitted
stream (a promise settles once; later resolutions are no-ops). -/

/-- The value a player-query promise settles with. -/
inductive SettleVal where
  | ok (ps : List PlayerEntry)
  | err (e : String)
deriving DecidableEq, Repr

/-- View of a parse result as a settle value (resolve on success, reject /
resolve-with-error on a thrown parse error). -/
def toSettle : Except String (List PlayerEntry) → SettleVal
  | Except.ok ps => SettleVal.ok ps
  | Except.error e => SettleVal.err e

/-- External events a query can observe. -/
inductive QEv where
  | msg (d : List Nat)
  | timeout
  | sockErr (e : String)
  | sendErr (e : String)
deriving DecidableEq, Repr

/-- Observable actions a query performs. -/
inductive QAct where
  | armTimer
  | clearTimer
  | close
  | send (bytes : List Nat)
  | settle (r : SettleVal)
deriving DecidableEq, Repr

/-- The A2S_PLAYER challenge request both implementations send first
(server.js lines 91-94, part_000 lines 83-87). -/
def challengePacket : List Nat :=
  [255, 255, 255, 255, 85, 255, 255, 255, 255]

/-- The player request built from bytes 5..9 of the challenge datagram
(`data.slice(5, 9)`; server.js lines 111-117, part_000 lines 104-111). -/
def playerPacket (d : List Nat) : List Nat :=
  [255, 255, 255, 255, 85] ++ (d.drop 5).take 4

/-- State of server.js `getPlayers` (lines 81-152): only the
`challengeReceived` flag; the code has no resolved guard. -/
structure GPState where
  challengeReceived : Bool
deriving DecidableEq, Repr

/-- One event handler dispatch of server.js `getPlayers`:
timeout handler (lines 84-87), socket error handler (lines 140-144), both
send callbacks (lines 96-103 and 119-125, identical bodies), and the message
handler (lines 107-138), which takes any datagram of length at least 9 as the
challenge while `challengeReceived` is false - the type byte is not
inspected - and otherwise closes and parses the datagram as player data. -/
def gpStep (s : GPState) : QEv → GPState × List QAct
  | QEv.timeout => (s, [QAct.close, QAct.settle (SettleVal.err "Timeout")])
  | QEv.sockErr e =>
      (s, [QAct.clearTimer, QAct.close, QAct.settle (SettleVal.err e)])
  | QEv.sendErr e =>
      (s, [QAct.clearTimer, QAct.close, QAct.settle (SettleVal.err e)])
  | QEv.msg d =>
      if s.challengeReceived = false ∧ 9 ≤ d.length then
        ({ challengeReceived := true }, [QAct.send (playerPacket d)])
      else
        (s, [QAct.clearTimer, QAct.close,
             QAct.settle (toSettle (parsePlayerInfo d))])

/-- Phase of part_000 `queryPlayers` (the `step` variable, line 72). -/
inductive QPPhase where
  | challenge
  | players
deriving DecidableEq, Repr

/-- State of part_000 `queryPlayers` (lines 68-145): the `resolved` guard and
the `step` variable. -/
structure QPState where
  resolved : Bool
  phase : QPPhase
deriving DecidableEq, Repr

/-- Initial state of part_000 `queryPlayers`. -/
def qpInit : QPState := { resolved := false, phase := QPPhase.challenge }

/-- Initial state of server.js `getPlayers`. -/
def gpInit : GPState := { challengeReceived := false }

/-- One event handler dispatch of part_000 `queryPlayers`: every handler is
guarded by `resolved` (lines 75, 90, 99, 137); the challenge branch accepts a
datagram only when it is at least 9 bytes long and its byte 4 is 0x41
(line 103), otherwise it settles with the "Invalid challenge response" error
(lines 115-120); the player branch parses (parseA2SPlayers cannot throw, so
the success branch of the try at lines 126-131 is taken). -/
def qpStep (s : QPState) : QEv → QPState × List QAct
  | QEv.timeout =>
      if s.resolved then (s, [])
      else ({ s with resolved := true },
            [QAct.close, QAct.settle (SettleVal.err "Timeout")])
  | QEv.sockErr e =>
      if s.resolved then (s, [])
      else ({ s with resolved := true },
            [QAct.clearTimer, QAct.close, QAct.settle (SettleVal.err e)])
  | QEv.sendErr e =>
      if s.resolved then (s, [])
      else ({ s with resolved := true },
            [QAct.clearTimer, QAct.close, QAct.settle (SettleVal.err e)])
  | QEv.msg m =>
      if s.resolved then (s, [])
      else
        match s.phase with
        | QPPhase.challenge =>
          if 9 ≤ m.length ∧ byteD m 4 = 65 then
            ({ s with phase := QPPhase.players }, [QAct.send (playerPacket m)])
          else
            ({ s with resolved := true },
             [QAct.clearTimer, QAct.close,
              QAct.settle (SettleVal.err "Invalid challenge response")])
        | QPPhase.players =>
          ({ s with resolved := true },
           [QAct.clearTimer, QAct.close,
            QAct.settle (SettleVal.ok (parseA2SPlayers m))])

/-- Run server.js `getPlayers` handlers over an event list, collecting the
final state and the emitted actions. -/
def gpExec : GPState → List QEv → GPState × List QAct
  | s, [] => (s, [])
  | s, e :: es =>
    let p := gpStep s e
    let q := gpExec p.1 es
    (q.1, p.2 ++ q.2)

/-- Run part_000 `queryPlayers` handlers over an event list. -/
def qpExec : QPState → List QEv → QPState × List QAct
  | s, [] => (s, [])
  | s, e :: es =>
    let p := qpStep s e
    let q := qpExec p.1 es
    (q.1, p.2 ++ q.2)

/-- Full action trace of a server.js `getPlayers` call: the timer is armed
(lines 84-87) and the challenge request sent (line 96) before any event is
handled. -/
def gpActs (es : List QEv) : List QAct :=
  QAct.armTimer :: QAct.send challengePacket :: (gpExec gpInit es).2

/-- Full action trace of a part_000 `queryPlayers` call (timer armed at
lines 74-80, challenge request sent at line 136). -/
def qpActs (es : List QEv) : List QAct :=
  QAct.armTimer :: QAct.send challengePacket :: (qpExec qpInit es).2

/-- Number of armTimer actions in a trace. -/
def armCount : List QAct → Nat
  | [] => 0
  | QAct.armTimer :: rest => armCount rest + 1
  | _ :: rest => armCount rest

/-- Number of close actions in a trace. -/
def closeCount : List QAct → Nat
  | [] => 0
  | QAct.close :: rest => closeCount rest + 1
  | _ :: rest => closeCount rest

/-- The value the promise settles with: the first settle action of the trace
(later settles of an already-settled promise are no-ops). -/
def firstSettle : List QAct → Option SettleVal
  | [] => none
  | QAct.settle r :: _ => some r
  | _ :: rest => firstSettle rest

/-! ## Batch orchestration

The two `/query-batch` handlers run the specs in consecutive windows
(`BATCH_SIZE = 5` in server.js lines 323-360, `concurrency = 10` in part_000
lines 273-306); within a window `Promise.all` over `batch.map` keeps input
order.  The network is abstracted by functions giving each spec's two
sub-query outcomes; both implementations convert every sub-query fault into a
value (server.js catches each await, part_000's queries never reject), so an
outcome is an `Except` value per sub-query. -/

/-- A caller-supplied batch entry (`server.id`, `server.ip`, `server.port`). -/
structure QuerySpec where
  id : Nat
  ip : String
  port : Nat
deriving DecidableEq, Repr

/-- Result object built per spec by the server.js handler (lines 327-353):
fields start null, success fills the data field, failure fills the error
message. -/
structure BatchResultS where
  id : Nat
  ip : String
  port : Nat
  serverInfo : Option ServerInfoS
  players : Option (List PlayerEntry)
  errServerInfo : Option String
  errPlayers : Option String
deriving DecidableEq, Repr

/-- Result object built per spec by the part_000 handler (lines 278-295):
`players` defaults to the empty list, not null, on failure. -/
structure BatchResultP where
  id : Nat
  ip : String
  port : Nat
  serverInfo : Option A2SInfo
  players : List PlayerEntry
  errServerInfo : Option String
  errPlayers : Option String
deriving DecidableEq, Repr

/-- server.js per-spec result (lines 327-353). -/
def mkResultS (infoOf : QuerySpec → Except String ServerInfoS)
    (playersOf : QuerySpec → Except String (List PlayerEntry))
    (s : QuerySpec) : BatchResultS :=
  { id := s.id, ip := s.ip, port := s.port,
    serverInfo := match infoOf s with
      | Except.ok v => some v
      | Except.error _ => none,
    players := match playersOf s with
      | Except.ok v => some v
      | Except.error _ => none,
    errServerInfo := match infoOf s with
      | Except.ok _ => none
      | Except.error e => some e,
    errPlayers := match playersOf s with
      | Except.ok _ => none
      | Except.error e => some e }

/-- part_000 per-spec result (lines 284-294). -/
def mkResultP (infoOf : QuerySpec → Except String A2SInfo)
    (playersOf : QuerySpec → Except String (List PlayerEntry))
    (s : QuerySpec) : BatchResultP :=
  { id := s.id, ip := s.ip, port := s.port,
    serverInfo := match infoOf s with
      | Except.ok v => some v
      | Except.error _ => none,
    players := match playersOf s with
      | Except.ok v => v
      | Except.error _ => [],
    errServerInfo := match infoOf s with
      | Except.ok _ => none
      | Except.error e => some e,
    errPlayers := match playersOf s with
      | Except.ok _ => none
      | Except.error e => some e }

/-- The window loop shared by both batch handlers: take a window of `k+1`
specs, map the per-spec result over it (`Promise.all` keeps this order),
append, continue with the remainder.  The inter-window pacing delay of
part_000 (line 304) affects timing only, not the collected list. -/
def batchLoop {β : Type} (k : Nat) (f : QuerySpec → β) :
    List QuerySpec → List β
  | [] => []
  | s :: rest =>
    ((s :: rest).take (k + 1)).map f ++ batchLoop k f (rest.drop k)
  termination_by l => l.length
  decreasing_by
    simp only [List.length_drop, List.length_cons]
    omega

/-- server.js `/query-batch` (lines 323-360): windows of 5. -/
def queryBatchS (infoOf : QuerySpec → Except String ServerInfoS)
    (playersOf : QuerySpec → Except String (List PlayerEntry))
    (servers : List QuerySpec) : List BatchResultS :=
  batchLoop 4 (mkResultS infoOf playersOf) servers

/-- part_000 `/query-batch` (lines 273-306): windows of 10. -/
def queryBatchP (infoOf : QuerySpec → Except String A2SInfo)
    (playersOf : QuerySpec → Except String (List PlayerEntry))
    (servers : List QuerySpec) : List BatchResultP :=
  batchLoop 9 (mkResultP infoOf playersOf) servers


/-- The concrete info-response buffer fixed by the claim: simple response
header, type byte 0x49, the four strings, then appId 240 (LE), players 16,
maxPlayers 32, bots 0, serverType 'd' (100), environment 'l' (108). -/
def c3Buf : List Nat :=
  [255, 255, 255, 255, 73] ++ asciiBytes "My Server" ++ [0]
    ++ asciiBytes "de_dust2" ++ [0] ++ asciiBytes "csgo" ++ [0]
    ++ asciiBytes "Counter-Strike" ++ [0] ++ [240, 0, 16, 32, 0, 100, 108]

/-- C5 counterexample: a buffer with a valid server.js header (length 6,
type 0x49), four parseable strings and only 2 trailing bytes.  The claim
says the parsed strings survive and the missing numeric fields default to
zero; server.js instead discards the parsed strings and returns the
"Parse Error" sentinel. -/
def c5Buf : List Nat :=
  [255, 255, 255, 255, 73, 0] ++ asciiBytes "abc" ++ [0] ++ asciiBytes "m"
    ++ [0] ++ asciiBytes "f" ++ [0] ++ asciiBytes "g" ++ [0] ++ [1, 2]

/-- An on-the-wire player entry used to state C4: index byte, name bytes,
4 score bytes, 4 duration bytes. -/
structure RawEntry where
  idx : Nat
  nameB : List Nat
  scoreB : List Nat
  durB : List Nat
deriving DecidableEq, Repr

/-- Wire encoding of a complete player entry: index byte, zero-terminated
name, then the 8 score / duration bytes. -/
def encEntry (e : RawEntry) : List Nat :=
  e.idx :: (e.nameB ++ 0 :: (e.scoreB ++ e.durB))

/-- Well-formed wire entry: no zero byte inside the name, 4-byte score and
duration fields. -/
def entryWF (e : RawEntry) : Prop :=
  (∀ x ∈ e.nameB, x ≠ 0) ∧ e.scoreB.length = 4 ∧ e.durB.length = 4

/-- The PlayerEntry part_000 parses from a complete encoded entry whose name
is ASCII (code units equal bytes): raw name, signed score, raw duration
bits. -/
def entryP (e : RawEntry) : PlayerEntry :=
  { index := e.idx, name := e.nameB, score := int32Of e.scoreB,
    duration := le32Of e.durB }

/-- The PlayerEntry server.js parses from a complete encoded entry: decoded
trimmed name, score, duration bits normalised by the falsy check. -/
def entryS (e : RawEntry) : PlayerEntry :=
  { index := e.idx, name := jsTrim (utf16Units e.nameB), score := int32Of e.scoreB,
    duration := durNorm (le32Of e.durB) }

instance (e : RawEntry) : Decidable (entryWF e) := by
  unfold entryWF
  infer_instance

/-! ## Decoder lemmas -/

theorem utf16Units_nil : utf16Units [] = [] := rfl

theorem utf16Aux_ascii : ∀ (fuel : Nat) (l : List Nat), l.length ≤ fuel →
    (∀ x ∈ l, x < 128) → utf16Aux fuel l = l := by
  intro fuel
  induction fuel with
  | zero =>
    intro l hl ha
    have hnil : l = [] := List.eq_nil_of_length_eq_zero (by omega)
    subst hnil
    rfl
  | succ m ih =>
    intro l hl ha
    cases l with
    | nil => rfl
    | cons b rest =>
      have hb : b < 128 := ha b (by simp)
      simp only [utf16Aux, if_pos hb]
      rw [ih rest (by simp at hl; omega) (fun x hx => ha x (by simp [hx]))]

/-- On ASCII byte lists the decoded string's code units are the bytes
themselves, so the decoded length equals the byte length. -/
theorem utf16Units_ascii (l : List Nat) (h : ∀ x ∈ l, x < 128) :
    utf16Units l = l :=
  utf16Aux_ascii l.length l (Nat.le_refl _) h

/-! ## List access lemmas -/

theorem getD_append_len (pre rest : List Nat) (k : Nat) :
    (pre ++ rest).getD (pre.length + k) 0 = rest.getD k 0 := by
  induction pre with
  | nil => simp
  | cons a t ih =>
    have h : (a :: t).length + k = (t.length + k) + 1 := by
      simp only [List.length_cons]; omega
    rw [List.cons_append, h, List.getD_cons_succ, ih]

theorem getD_append_lt (pre rest : List Nat) (i : Nat) (h : i < pre.length) :
    (pre ++ rest).getD i 0 = pre.getD i 0 := by
  induction pre generalizing i with
  | nil => simp at h
  | cons a t ih =>
    cases i with
    | zero => simp
    | succ j =>
      rw [List.cons_append, List.getD_cons_succ, List.getD_cons_succ]
      exact ih j (by simp at h; omega)

theorem drop_append_len (pre rest : List Nat) (k : Nat) :
    (pre ++ rest).drop (pre.length + k) = rest.drop k := by
  induction pre with
  | nil => simp
  | cons a t ih =>
    have h : (a :: t).length + k = (t.length + k) + 1 := by
      simp only [List.length_cons]; omega
    rw [List.cons_append, h, List.drop_succ_cons, ih]

theorem takeWhile_append_zero (nm rest : List Nat) (h : ∀ x ∈ nm, x ≠ 0) :
    (nm ++ 0 :: rest).takeWhile (fun b => b != 0) = nm := by
  induction nm with
  | nil => simp [List.takeWhile]
  | cons a t ih =>
    have ha : (a != 0) = true := by
      simp only [bne_iff_ne, ne_eq]
      exact h a (by simp)
    rw [List.cons_append, List.takeWhile_cons, if_pos ha,
      ih (fun x hx => h x (by simp [hx]))]

theorem byteD_at (pre : List Nat) (b : Nat) (rest : List Nat) :
    byteD (pre ++ b :: rest) pre.length = b := by
  have h := getD_append_len pre (b :: rest) 0
  simpa [byteD] using h

theorem byteD_at_add (pre l rest : List Nat) (i : Nat) (h : i < l.length) :
    byteD (pre ++ (l ++ rest)) (pre.length + i) = l.getD i 0 := by
  unfold byteD
  rw [getD_append_len pre (l ++ rest) i, getD_append_lt l rest i h]

theorem byteD_left (pre rest : List Nat) (i : Nat) (h : i < pre.length) :
    byteD (pre ++ rest) i = byteD pre i := by
  unfold byteD
  exact getD_append_lt pre rest i h

theorem readStr_at (pre nm rest : List Nat) (h : ∀ x ∈ nm, x ≠ 0) :
    readStrBytes (pre ++ (nm ++ 0 :: rest)) pre.length = nm := by
  unfold readStrBytes
  have hd : (pre ++ (nm ++ 0 :: rest)).drop (pre.length + 0) = (nm ++ 0 :: rest).drop 0 :=
    drop_append_len pre (nm ++ 0 :: rest) 0
  simp only [Nat.add_zero, List.drop_zero] at hd
  rw [hd, takeWhile_append_zero nm rest h]

theorem readStr_past_end (data : List Nat) (offset : Nat)
    (h : data.length ≤ offset) : readStrBytes data offset = [] := by
  unfold readStrBytes
  rw [List.drop_eq_nil_of_le h]
  rfl

theorem le32_at (pre l rest : List Nat) (h : l.length = 4) :
    le32 (pre ++ (l ++ rest)) pre.length = le32Of l := by
  unfold le32 le32Of
  have h0 := byteD_at_add pre l rest 0 (by omega)
  have h1 := byteD_at_add pre l rest 1 (by omega)
  have h2 := byteD_at_add pre l rest 2 (by omega)
  have h3 := byteD_at_add pre l rest 3 (by omega)
  simp only [Nat.add_zero] at h0
  rw [h0, h1, h2, h3]

theorem readI32_at (pre l rest : List Nat) (h : l.length = 4) :
    readI32 (pre ++ (l ++ rest)) pre.length = int32Of l := by
  unfold readI32 int32Of
  rw [le32_at pre l rest h]

/-! ## C6: batch order preservation -/

theorem batchLoop_eq_map_aux {β : Type} (k : Nat) (f : QuerySpec → β) :
    ∀ (n : Nat) (l : List QuerySpec), l.length ≤ n → batchLoop k f l = l.map f := by
  intro n
  induction n with
  | zero =>
    intro l hl
    have : l = [] := List.eq_nil_of_length_eq_zero (by omega)
    subst this
    rw [batchLoop]
    rfl
  | succ m ih =>
    intro l hl
    cases l with
    | nil => rw [batchLoop]; rfl
    | cons s rest =>
      rw [batchLoop]
      have hlen : (rest.drop k).length ≤ m := by
        simp only [List.length_drop]
        simp only [List.length_cons] at hl
        omega
      rw [ih (rest.drop k) hlen]
      have hsplit : (s :: rest).map f
          = ((s :: rest).take (k + 1)).map f ++ ((s :: rest).drop (k + 1)).map f := by
        rw [← List.map_append, List.take_append_drop]
      rw [hsplit, List.drop_succ_cons]

theorem batchLoop_eq_map {β : Type} (k : Nat) (f : QuerySpec → β)
    (l : List QuerySpec) : batchLoop k f l = l.map f :=
  batchLoop_eq_map_aux k f l.length l (Nat.le_refl _)

/-! ## Machine lemmas for the player-query flows -/

theorem armCount_append (a b : List QAct) :
    armCount (a ++ b) = armCount a + armCount b := by
  induction a with
  | nil => simp [armCount]
  | cons x rest ih =>
    cases x <;> simp [armCount, ih, Nat.add_right_comm]

theorem gpStep_armCount (s : GPState) (e : QEv) :
    armCount (gpStep s e).2 = 0 := by
  cases e <;> simp only [gpStep] <;> first | rfl | (split <;> rfl)

theorem qpStep_armCount (s : QPState) (e : QEv) :
    armCount (qpStep s e).2 = 0 := by
  cases e <;> simp only [qpStep] <;> (repeat' split) <;> rfl

theorem gpExec_armCount (es : List QEv) : ∀ s, armCount (gpExec s es).2 = 0 := by
  induction es with
  | nil => intro s; rfl
  | cons e rest ih =>
    intro s
    simp only [gpExec]
    rw [armCount_append, gpStep_armCount, ih]

theorem qpExec_armCount (es : List QEv) : ∀ s, armCount (qpExec s es).2 = 0 := by
  induction es with
  | nil => intro s; rfl
  | cons e rest ih =>
    intro s
    simp only [qpExec]
    rw [armCount_append, qpStep_armCount, ih]

theorem firstSettle_cons_other (x : QAct) (l : List QAct)
    (h : ∀ r, x ≠ QAct.settle r) : firstSettle (x :: l) = firstSettle l := by
  cases x with
  | settle r => exact absurd rfl (h r)
  | armTimer => rfl
  | clearTimer => rfl
  | close => rfl
  | send p => rfl

theorem firstSettle_append_none (a b : List QAct) (h : firstSettle a = none) :
    firstSettle (a ++ b) = firstSettle b := by
  induction a with
  | nil => rfl
  | cons x rest ih =>
    cases x with
    | settle r => simp [firstSettle] at h
    | armTimer => exact ih (by simpa [firstSettle] using h)
    | clearTimer => exact ih (by simpa [firstSettle] using h)
    | close => exact ih (by simpa [firstSettle] using h)
    | send p => exact ih (by simpa [firstSettle] using h)

theorem qpStep_of_resolved (s : QPState) (e : QEv) (h : s.resolved = true) :
    qpStep s e = (s, []) := by
  cases e <;> simp [qpStep, h]

theorem qpExec_of_resolved (es : List QEv) : ∀ s : QPState, s.resolved = true →
    qpExec s es = (s, []) := by
  induction es with
  | nil => intro s h; rfl
  | cons e rest ih =>
    intro s h
    simp only [qpExec, qpStep_of_resolved s e h, ih s h]
    rfl

theorem qpStep_noSettle (s : QPState) (e : QEv) (h : s.resolved = false)
    (h2 : (qpStep s e).1.resolved = false) :
    firstSettle (qpStep s e).2 = none := by
  obtain ⟨res, ph⟩ := s
  simp only at h
  subst h
  cases e with
  | timeout => simp [qpStep] at h2
  | sockErr er => simp [qpStep] at h2
  | sendErr er => simp [qpStep] at h2
  | msg m =>
    cases ph with
    | challenge =>
      by_cases hc : 9 ≤ m.length ∧ byteD m 4 = 65
      · simp [qpStep, hc, firstSettle]
      · simp [qpStep, hc] at h2
    | players => simp [qpStep] at h2

theorem qpExec_noSettle (es : List QEv) : ∀ s : QPState, s.resolved = false →
    (qpExec s es).1.resolved = false → firstSettle (qpExec s es).2 = none := by
  induction es with
  | nil => intro s h hf; rfl
  | cons e rest ih =>
    intro s h hf
    simp only [qpExec] at hf ⊢
    by_cases h1 : (qpStep s e).1.resolved = true
    · rw [qpExec_of_resolved rest _ h1] at hf
      exact absurd hf (by simp [h1])
    · have h1' : (qpStep s e).1.resolved = false := by
        revert h1; cases (qpStep s e).1.resolved <;> simp
      rw [firstSettle_append_none _ _ (qpStep_noSettle s e h h1')]
      exact ih _ h1' hf

theorem qpExec_append (pre post : List QEv) : ∀ s, qpExec s (pre ++ post)
    = ((qpExec (qpExec s pre).1 post).1,
       (qpExec s pre).2 ++ (qpExec (qpExec s pre).1 post).2) := by
  induction pre with
  | nil => intro s; simp [qpExec]
  | cons e rest ih =>
    intro s
    simp [qpExec, ih, List.append_assoc]

theorem gpExec_append (pre post : List QEv) : ∀ s, gpExec s (pre ++ post)
    = ((gpExec (gpExec s pre).1 post).1,
       (gpExec s pre).2 ++ (gpExec (gpExec s pre).1 post).2) := by
  induction pre with
  | nil => intro s; simp [gpExec]
  | cons e rest ih =>
    intro s
    simp [gpExec, ih, List.append_assoc]

/-! ## Claim C6 -/

/-- C6: for every input list of specs, each batch handler returns exactly one
result per input spec, in input order, and each spec's result is a function of
that spec's own sub-query outcomes alone, so a failure recorded in one spec's
outcomes never aborts the batch or changes any other spec's result. -/
theorem c6_batch_order_preserving :
    (∀ (infoOf : QuerySpec → Except String ServerInfoS)
       (playersOf : QuerySpec → Except String (List PlayerEntry))
       (servers : List QuerySpec),
       queryBatchS infoOf playersOf servers
           = servers.map (mkResultS infoOf playersOf)
         ∧ (queryBatchS infoOf playersOf servers).length = servers.length) ∧
    (∀ (infoOf : QuerySpec → Except String A2SInfo)
       (playersOf : QuerySpec → Except String (List PlayerEntry))
       (servers : List QuerySpec),
       queryBatchP infoOf playersOf servers
           = servers.map (mkResultP infoOf playersOf)
         ∧ (queryBatchP infoOf playersOf servers).length = servers.length) := by
  constructor
  · intro infoOf playersOf servers
    have h := batchLoop_eq_map 4 (mkResultS infoOf playersOf) servers
    exact ⟨h, by rw [queryBatchS, h, List.length_map]⟩
  · intro infoOf playersOf servers
    have h := batchLoop_eq_map 9 (mkResultP infoOf playersOf) servers
    exact ⟨h, by rw [queryBatchP, h, List.length_map]⟩

/-! ## Claim C7 -/

/-- C7: in both player-query implementations the timeout timer is armed
exactly once per call, at the start, on every event trace - no second timer
exists for the second leg - and if the timer fires at any point before the
promise has settled (during either leg), the call settles with the Timeout
error. -/
theorem c7_single_timer :
    (∀ es, armCount (qpActs es) = 1) ∧
    (∀ es, armCount (gpActs es) = 1) ∧
    (∀ pre post, (qpExec qpInit pre).1.resolved = false →
       firstSettle (qpActs (pre ++ QEv.timeout :: post))
         = some (SettleVal.err "Timeout")) ∧
    (∀ pre post, firstSettle (gpActs pre) = none →
       firstSettle (gpActs (pre ++ QEv.timeout :: post))
         = some (SettleVal.err "Timeout")) := by
  refine ⟨?_, ?_, ?_, ?_⟩
  · intro es
    simp [qpActs, armCount, qpExec_armCount es qpInit]
  · intro es
    simp [gpActs, armCount, gpExec_armCount es gpInit]
  · intro pre post h
    have hinit : (qpInit : QPState).resolved = false := rfl
    have hsplit := qpExec_append pre (QEv.timeout :: post) qpInit
    have hpre := qpExec_noSettle pre qpInit hinit h
    have hstep : qpStep (qpExec qpInit pre).1 QEv.timeout
        = ({ (qpExec qpInit pre).1 with resolved := true },
           [QAct.close, QAct.settle (SettleVal.err "Timeout")]) := by
      simp [qpStep, h]
    simp only [qpActs, firstSettle]
    rw [hsplit]
    simp only [qpExec, hstep]
    rw [firstSettle_append_none _ _ hpre]
    rfl
  · intro pre post h
    have hpre : firstSettle (gpExec gpInit pre).2 = none := by
      simpa [gpActs, firstSettle] using h
    have hsplit := gpExec_append pre (QEv.timeout :: post) gpInit
    simp only [gpActs, firstSettle]
    rw [hsplit]
    rw [firstSettle_append_none _ _ hpre]
    simp only [gpExec, gpStep]
    rfl

/-- Concrete instance of C7's hypothesis-bearing parts: the timer firing as
the first event of either implementation settles the promise with Timeout. -/
theorem c7_single_timer_witness :
    firstSettle (qpActs (([] : List QEv) ++ QEv.timeout :: []))
        = some (SettleVal.err "Timeout") ∧
    firstSettle (gpActs (([] : List QEv) ++ QEv.timeout :: []))
        = some (SettleVal.err "Timeout") :=
  ⟨c7_single_timer.2.2.1 [] [] (by decide),
   c7_single_timer.2.2.2 [] [] (by decide)⟩

/-! ## Claim C8 -/

/-- C8: the code of server.js getPlayers can close the socket twice on one
call.  After the challenge datagram arrives the player request is sent
(first event); if the timeout timer then fires it closes the socket and
rejects (second event); when the pending send callback subsequently reports
an error - the socket it was writing on is now closed - the handler at
lines 119-125 runs clearTimeout and `client.close()` a second time.  The
part_000 implementation guards every handler with its `resolved` flag and
closes exactly once on the same event sequence. -/
theorem c8_double_close :
    closeCount (gpActs [QEv.msg [255, 255, 255, 255, 65, 1, 2, 3, 4],
        QEv.timeout, QEv.sendErr "socket closed"]) = 2 ∧
    closeCount (qpActs [QEv.msg [255, 255, 255, 255, 65, 1, 2, 3, 4],
        QEv.timeout, QEv.sendErr "socket closed"]) = 1 := by
  decide

/-! ## Claim C1 -/

/-- C1 counterexample: in server.js getPlayers a 9-byte datagram whose byte
at offset 4 is 0x44 (not 0x41) is accepted as the challenge - the machine
sends the player request built from its bytes 5..9 and settles nothing -
where the claim requires the flow to settle with the challenge-rejected
error. -/
theorem c1_counterexample :
    gpActs [QEv.msg [0, 0, 0, 0, 68, 7, 8, 9, 10]]
        = [QAct.armTimer, QAct.send challengePacket,
           QAct.send [255, 255, 255, 255, 85, 7, 8, 9, 10]] ∧
    firstSettle (gpActs [QEv.msg [0, 0, 0, 0, 68, 7, 8, 9, 10]]) = none := by
  decide

/-- C1 amended: in part_000 queryPlayers any challenge-phase datagram whose
byte 4 is not 0x41 settles the call with the "Invalid challenge response"
error regardless of its length; in server.js getPlayers the type byte is
never inspected: every datagram of length at least 9 is accepted as the
challenge and answered with a player request. -/
theorem c1_amended :
    (∀ m : List Nat, byteD m 4 ≠ 65 →
       qpStep qpInit (QEv.msg m)
         = ({ resolved := true, phase := QPPhase.challenge },
            [QAct.clearTimer, QAct.close,
             QAct.settle (SettleVal.err "Invalid challenge response")])) ∧
    (∀ d : List Nat, 9 ≤ d.length →
       gpStep gpInit (QEv.msg d)
         = ({ challengeReceived := true }, [QAct.send (playerPacket d)])) := by
  constructor
  · intro m h
    have hc : ¬ (9 ≤ m.length ∧ byteD m 4 = 65) := by
      intro hand
      exact h hand.2
    simp [qpStep, qpInit, hc]
  · intro d h
    simp [gpStep, gpInit, h]

/-- Concrete instance of C1's amended statement: a 12-byte datagram with type
byte 0x44 is rejected by part_000, and a 9-byte all-zero datagram is accepted
as a challenge by server.js. -/
theorem c1_amended_witness :
    qpStep qpInit (QEv.msg [255, 255, 255, 255, 68, 1, 2, 3, 4, 5, 6, 7])
        = ({ resolved := true, phase := QPPhase.challenge },
           [QAct.clearTimer, QAct.close,
            QAct.settle (SettleVal.err "Invalid challenge response")]) ∧
    gpStep gpInit (QEv.msg [0, 0, 0, 0, 0, 0, 0, 0, 0])
        = ({ challengeReceived := true },
           [QAct.send (playerPacket [0, 0, 0, 0, 0, 0, 0, 0, 0])]) :=
  ⟨c1_amended.1 [255, 255, 255, 255, 68, 1, 2, 3, 4, 5, 6, 7] (by decide),
   c1_amended.2 [0, 0, 0, 0, 0, 0, 0, 0, 0] (by decide)⟩

/-! ## Claim C2 -/

/-- C2 counterexample: part_000's info decode of the empty buffer - shorter
than any header - is wrapped in try/catch by queryServer but can never throw:
it produces a success value with empty strings and zero counts, not a
MalformedResponse error. -/
theorem c2_counterexample :
    parseA2SInfoRes []
        = Except.ok { name := [], map := [], folder := [], game := [],
                      players := 0, maxPlayers := 0, protocol := none,
                      serverType := none, environment := none } := by
  decide

/-- C2 amended: in server.js, parseServerInfo and parsePlayerInfo return
their MalformedResponse error exactly when the buffer is shorter than 6
bytes or the type byte at offset 4 is wrong (0x49 / 0x44 respectively), and
no other input makes them fail.  In part_000 no header validation exists:
parseA2SInfo returns a defaulted ServerInfo success value for every buffer
shorter than the 5-byte header (and ignores the type tag entirely), and
parseA2SPlayers returns an empty player list, not an error, for buffers
shorter than 6 bytes. -/
theorem c2_amended :
    (∀ b : List Nat,
       parseServerInfo b = Except.error "Invalid server info response"
         ↔ (b.length < 6 ∨ byteD b 4 ≠ 73)) ∧
    (∀ b : List Nat,
       parsePlayerInfo b = Except.error "Invalid player info response"
         ↔ (b.length < 6 ∨ byteD b 4 ≠ 68)) ∧
    (∀ b : List Nat, b.length < 5 →
       parseA2SInfo b
         = { name := [], map := [], folder := [], game := [], players := 0,
             maxPlayers := 0, protocol := none, serverType := none,
             environment := none }) ∧
    (∀ b : List Nat, b.length < 6 → parseA2SPlayers b = []) := by
  refine ⟨?_, ?_, ?_, ?_⟩
  · intro b
    by_cases hc : b.length < 6 ∨ byteD b 4 ≠ 73
    · simp [parseServerInfo, hc]
    · rw [parseServerInfo, if_neg hc]
      simp only [hc, iff_false]
      split <;> simp
  · intro b
    by_cases hc : b.length < 6 ∨ byteD b 4 ≠ 68
    · simp [parsePlayerInfo, hc]
    · rw [parsePlayerInfo, if_neg hc]
      simp [hc]
  · intro b h
    have h5 : readStrBytes b 5 = [] := readStr_past_end b 5 (by omega)
    have h6 : readStrBytes b 6 = [] := readStr_past_end b 6 (by omega)
    have h7 : readStrBytes b 7 = [] := readStr_past_end b 7 (by omega)
    have h8 : readStrBytes b 8 = [] := readStr_past_end b 8 (by omega)
    have hcond : ¬(17 ≤ b.length) := by omega
    simp [parseA2SInfo, h5, h6, h7, h8, hcond, utf16Units_nil]
  · intro b h
    rw [parseA2SPlayers, if_pos h]

/-- Concrete instance of C2's amended statement with its hypotheses
discharged: each short-buffer branch evaluated at a 2- or 3-byte input, and
the header iff applied at the empty buffer. -/
theorem c2_amended_witness :
    parseA2SInfo [1, 2]
        = { name := [], map := [], folder := [], game := [], players := 0,
            maxPlayers := 0, protocol := none, serverType := none,
            environment := none } ∧
    parseA2SPlayers [1, 2, 3] = [] ∧
    parseServerInfo [] = Except.error "Invalid server info response" :=
  ⟨c2_amended.2.2.1 [1, 2] (by decide),
   c2_amended.2.2.2 [1, 2, 3] (by decide),
   (c2_amended.1 []).mpr (Or.inl (by decide))⟩

/-! ## Claim C10 -/

/-- C10: once server.js parseServerInfo's header check passes (length at
least 6 and type byte 0x49 at offset 4), the function always returns a
success value - no MalformedResponse can escape - and whenever fewer than 7
bytes remain after the four strings, that value is the catch-block sentinel
with name "Parse Error", map and game "Unknown" and all numeric fields
zero. -/
theorem c10_no_error_after_header :
    (∀ data : List Nat, 6 ≤ data.length → byteD data 4 = 73 →
       ∃ v, parseServerInfo data = Except.ok v) ∧
    (∀ data : List Nat, 6 ≤ data.length → byteD data 4 = 73 →
       data.length < infoStrEnd data + 7 →
       parseServerInfo data = Except.ok psSentinel) := by
  constructor
  · intro data h1 h2
    have hc : ¬(data.length < 6 ∨ byteD data 4 ≠ 73) := by
      rintro (h | h)
      · omega
      · exact h h2
    simp only [parseServerInfo]
    rw [if_neg hc]
    split
    · exact ⟨psSentinel, rfl⟩
    · exact ⟨_, rfl⟩
  · intro data h1 h2 h3
    have hc : ¬(data.length < 6 ∨ byteD data 4 ≠ 73) := by
      rintro (h | h)
      · omega
      · exact h h2
    simp only [infoStrEnd] at h3
    simp only [parseServerInfo]
    rw [if_neg hc]
    split
    · rfl
    · rename_i hno
      exfalso
      omega

/-- Concrete instance of C10: a valid header followed by four empty strings
and no trailing bytes parses to the sentinel, not an error. -/
theorem c10_no_error_after_header_witness :
    parseServerInfo [255, 255, 255, 255, 73, 0, 0, 0, 0, 0]
        = Except.ok psSentinel :=
  c10_no_error_after_header.2 [255, 255, 255, 255, 73, 0, 0, 0, 0, 0]
    (by decide) (by decide) (by decide)

/-! ## Claim C3 -/

/-- C3 counterexample: neither decoder yields the struct the claim states.
server.js starts its string scan at offset 6 - one past the first name byte -
so the name comes back "y Server", not "My Server" (and its record has no
folder / serverType / environment fields at all); part_000 requires 8
trailing bytes where the buffer has 7, so players parses as 0, not 16. -/
theorem c3_counterexample :
    parseServerInfo c3Buf
        ≠ Except.ok { name := asciiBytes "My Server",
                      map := asciiBytes "de_dust2",
                      game := asciiBytes "Counter-Strike", players := 16,
                      maxPlayers := 32, bots := 0, appId := 240 } ∧
    (parseA2SInfo c3Buf).players ≠ 16 := by
  decide

/-- C3 amended: on the claim's buffer, server.js parseServerInfo returns
name "y Server" (the scan starts at offset 6), map "de_dust2", game
"Counter-Strike", appId 240, players 16, maxPlayers 32, bots 0, with no
folder, serverType or environment fields; part_000 parseA2SInfo returns the
four strings intact but defaults players and maxPlayers to 0 because only 7
trailing bytes remain where it requires 8 (and it never reads appId or
bots). -/
theorem c3_amended :
    parseServerInfo c3Buf
        = Except.ok { name := asciiBytes "y Server",
                      map := asciiBytes "de_dust2",
                      game := asciiBytes "Counter-Strike", players := 16,
                      maxPlayers := 32, bots := 0, appId := 240 } ∧
    parseA2SInfo c3Buf
        = { name := asciiBytes "My Server", map := asciiBytes "de_dust2",
            folder := asciiBytes "csgo", game := asciiBytes "Counter-Strike",
            players := 0, maxPlayers := 0, protocol := none,
            serverType := none, environment := none } := by
  decide

/-! ## Claim C5 -/

/-- C5 counterexample theorem: on `c5Buf` the decoder returns the sentinel
record, whose name is "Parse Error" rather than the parsed name "abc" the
claim requires. -/
theorem c5_counterexample :
    parseServerInfo c5Buf = Except.ok psSentinel ∧
    psSentinel.name ≠ asciiBytes "abc" := by
  decide

/-- C5 amended: both decoders return a ServerInfo value (never
MalformedResponse) when the trailing numeric block is truncated, but with
different policies and an all-or-nothing granularity.  For info responses
whose four strings are ASCII - where the decoded length part_000 adds per
string equals the byte length - part_000 parseA2SInfo keeps the four parsed
strings and defaults every trailing numeric field to zero / absent whenever
fewer than 8 bytes remain after the strings (even if some fields' bytes are
present); server.js parseServerInfo, whose offsets are byte-computed for any
strings, discards the parsed strings and returns the fixed "Parse Error"
sentinel whenever fewer than 7 bytes remain after the strings. -/
theorem c5_amended :
    (∀ (hdr s1 s2 s3 s4 tail : List Nat),
       hdr.length = 5 →
       (∀ x ∈ s1, x ≠ 0 ∧ x < 128) → (∀ x ∈ s2, x ≠ 0 ∧ x < 128) →
       (∀ x ∈ s3, x ≠ 0 ∧ x < 128) → (∀ x ∈ s4, x ≠ 0 ∧ x < 128) →
       tail.length < 8 →
       parseA2SInfo
           (hdr ++ (s1 ++ 0 :: (s2 ++ 0 :: (s3 ++ 0 :: (s4 ++ 0 :: tail)))))
         = { name := s1, map := s2, folder := s3, game := s4, players := 0,
             maxPlayers := 0, protocol := none, serverType := none,
             environment := none }) ∧
    (∀ (hdr s1 s2 s3 s4 tail : List Nat),
       hdr.length = 6 → byteD hdr 4 = 73 →
       (∀ x ∈ s1, x ≠ 0) → (∀ x ∈ s2, x ≠ 0) → (∀ x ∈ s3, x ≠ 0) →
       (∀ x ∈ s4, x ≠ 0) → tail.length < 7 →
       parseServerInfo
           (hdr ++ (s1 ++ 0 :: (s2 ++ 0 :: (s3 ++ 0 :: (s4 ++ 0 :: tail)))))
         = Except.ok psSentinel) := by
  constructor
  · intro hdr s1 s2 s3 s4 tail hh h1 h2 h3 h4 ht
    have h1z : ∀ x ∈ s1, x ≠ 0 := fun x hx => (h1 x hx).1
    have h2z : ∀ x ∈ s2, x ≠ 0 := fun x hx => (h2 x hx).1
    have h3z : ∀ x ∈ s3, x ≠ 0 := fun x hx => (h3 x hx).1
    have h4z : ∀ x ∈ s4, x ≠ 0 := fun x hx => (h4 x hx).1
    have hu1 : utf16Units s1 = s1 := utf16Units_ascii s1 (fun x hx => (h1 x hx).2)
    have hu2 : utf16Units s2 = s2 := utf16Units_ascii s2 (fun x hx => (h2 x hx).2)
    have hu3 : utf16Units s3 = s3 := utf16Units_ascii s3 (fun x hx => (h3 x hx).2)
    have hu4 : utf16Units s4 = s4 := utf16Units_ascii s4 (fun x hx => (h4 x hx).2)
    have e1 : readStrBytes
        (hdr ++ (s1 ++ 0 :: (s2 ++ 0 :: (s3 ++ 0 :: (s4 ++ 0 :: tail))))) 5 = s1 := by
      rw [← hh]
      exact readStr_at hdr s1 _ h1z
    have hB2 : hdr ++ (s1 ++ 0 :: (s2 ++ 0 :: (s3 ++ 0 :: (s4 ++ 0 :: tail))))
        = (hdr ++ s1 ++ [0]) ++ (s2 ++ 0 :: (s3 ++ 0 :: (s4 ++ 0 :: tail))) := by
      simp [List.append_assoc]
    have hl2 : (hdr ++ s1 ++ [0]).length = 5 + s1.length + 1 := by
      simp only [List.length_append, List.length_cons, List.length_nil, hh]
    have e2 : readStrBytes
        (hdr ++ (s1 ++ 0 :: (s2 ++ 0 :: (s3 ++ 0 :: (s4 ++ 0 :: tail)))))
        (5 + s1.length + 1) = s2 := by
      rw [hB2, ← hl2]
      exact readStr_at _ s2 _ h2z
    have hB3 : hdr ++ (s1 ++ 0 :: (s2 ++ 0 :: (s3 ++ 0 :: (s4 ++ 0 :: tail))))
        = (hdr ++ s1 ++ [0] ++ s2 ++ [0]) ++ (s3 ++ 0 :: (s4 ++ 0 :: tail)) := by
      simp [List.append_assoc]
    have hl3 : (hdr ++ s1 ++ [0] ++ s2 ++ [0]).length
        = 5 + s1.length + 1 + s2.length + 1 := by
      simp only [List.length_append, List.length_cons, List.length_nil, hh]
    have e3 : readStrBytes
        (hdr ++ (s1 ++ 0 :: (s2 ++ 0 :: (s3 ++ 0 :: (s4 ++ 0 :: tail)))))
        (5 + s1.length + 1 + s2.length + 1) = s3 := by
      rw [hB3, ← hl3]
      exact readStr_at _ s3 _ h3z
    have hB4 : hdr ++ (s1 ++ 0 :: (s2 ++ 0 :: (s3 ++ 0 :: (s4 ++ 0 :: tail))))
        = (hdr ++ s1 ++ [0] ++ s2 ++ [0] ++ s3 ++ [0]) ++ (s4 ++ 0 :: tail) := by
      simp [List.append_assoc]
    have hl4 : (hdr ++ s1 ++ [0] ++ s2 ++ [0] ++ s3 ++ [0]).length
        = 5 + s1.length + 1 + s2.length + 1 + s3.length + 1 := by
      simp only [List.length_append, List.length_cons, List.length_nil, hh]
    have e4 : readStrBytes
        (hdr ++ (s1 ++ 0 :: (s2 ++ 0 :: (s3 ++ 0 :: (s4 ++ 0 :: tail)))))
        (5 + s1.length + 1 + s2.length + 1 + s3.length + 1) = s4 := by
      rw [hB4, ← hl4]
      exact readStr_at _ s4 _ h4z
    have hBlen : (hdr ++ (s1 ++ 0 :: (s2 ++ 0 :: (s3 ++ 0 :: (s4 ++ 0 :: tail))))).length
        = 5 + s1.length + s2.length + s3.length + s4.length + 4 + tail.length := by
      simp only [List.length_append, List.length_cons, hh]
      omega
    simp only [parseA2SInfo, e1, hu1, e2, hu2, e3, hu3, e4, hu4]
    split
    · rename_i hcnd
      exfalso
      rw [hBlen] at hcnd
      omega
    · rfl
  · intro hdr s1 s2 s3 s4 tail hh htag h1 h2 h3 h4 ht
    have hBlen : (hdr ++ (s1 ++ 0 :: (s2 ++ 0 :: (s3 ++ 0 :: (s4 ++ 0 :: tail))))).length
        = 6 + s1.length + s2.length + s3.length + s4.length + 4 + tail.length := by
      simp only [List.length_append, List.length_cons, hh]
      omega
    have hbd : byteD (hdr ++ (s1 ++ 0 :: (s2 ++ 0 :: (s3 ++ 0 :: (s4 ++ 0 :: tail))))) 4 = 73 := by
      rw [byteD_left hdr _ 4 (by omega)]
      exact htag
    have hc : ¬((hdr ++ (s1 ++ 0 :: (s2 ++ 0 :: (s3 ++ 0 :: (s4 ++ 0 :: tail))))).length < 6
        ∨ byteD (hdr ++ (s1 ++ 0 :: (s2 ++ 0 :: (s3 ++ 0 :: (s4 ++ 0 :: tail))))) 4 ≠ 73) := by
      rintro (h | h)
      · rw [hBlen] at h
        omega
      · exact h hbd
    have e1 : readStrBytes
        (hdr ++ (s1 ++ 0 :: (s2 ++ 0 :: (s3 ++ 0 :: (s4 ++ 0 :: tail))))) 6 = s1 := by
      rw [← hh]
      exact readStr_at hdr s1 _ h1
    have hB2 : hdr ++ (s1 ++ 0 :: (s2 ++ 0 :: (s3 ++ 0 :: (s4 ++ 0 :: tail))))
        = (hdr ++ s1 ++ [0]) ++ (s2 ++ 0 :: (s3 ++ 0 :: (s4 ++ 0 :: tail))) := by
      simp [List.append_assoc]
    have hl2 : (hdr ++ s1 ++ [0]).length = 6 + s1.length + 1 := by
      simp only [List.length_append, List.length_cons, List.length_nil, hh]
    have e2 : readStrBytes
        (hdr ++ (s1 ++ 0 :: (s2 ++ 0 :: (s3 ++ 0 :: (s4 ++ 0 :: tail)))))
        (6 + s1.length + 1) = s2 := by
      rw [hB2, ← hl2]
      exact readStr_at _ s2 _ h2
    have hB3 : hdr ++ (s1 ++ 0 :: (s2 ++ 0 :: (s3 ++ 0 :: (s4 ++ 0 :: tail))))
        = (hdr ++ s1 ++ [0] ++ s2 ++ [0]) ++ (s3 ++ 0 :: (s4 ++ 0 :: tail)) := by
      simp [List.append_assoc]
    have hl3 : (hdr ++ s1 ++ [0] ++ s2 ++ [0]).length
        = 6 + s1.length + 1 + s2.length + 1 := by
      simp only [List.length_append, List.length_cons, List.length_nil, hh]
    have e3 : readStrBytes
        (hdr ++ (s1 ++ 0 :: (s2 ++ 0 :: (s3 ++ 0 :: (s4 ++ 0 :: tail)))))
        (6 + s1.length + 1 + s2.length + 1) = s3 := by
      rw [hB3, ← hl3]
      exact readStr_at _ s3 _ h3
    have hB4 : hdr ++ (s1 ++ 0 :: (s2 ++ 0 :: (s3 ++ 0 :: (s4 ++ 0 :: tail))))
        = (hdr ++ s1 ++ [0] ++ s2 ++ [0] ++ s3 ++ [0]) ++ (s4 ++ 0 :: tail) := by
      simp [List.append_assoc]
    have hl4 : (hdr ++ s1 ++ [0] ++ s2 ++ [0] ++ s3 ++ [0]).length
        = 6 + s1.length + 1 + s2.length + 1 + s3.length + 1 := by
      simp only [List.length_append, List.length_cons, List.length_nil, hh]
    have e4 : readStrBytes
        (hdr ++ (s1 ++ 0 :: (s2 ++ 0 :: (s3 ++ 0 :: (s4 ++ 0 :: tail)))))
        (6 + s1.length + 1 + s2.length + 1 + s3.length + 1) = s4 := by
      rw [hB4, ← hl4]
      exact readStr_at _ s4 _ h4
    simp only [parseServerInfo]
    rw [if_neg hc]
    simp only [e1, e2, e3, e4]
    split
    · rfl
    · rename_i hcnd
      exfalso
      rw [hBlen] at hcnd
      omega

/-- Concrete instance of C5's amended statement: one-character strings and a
3-byte (part_000) / 2-byte (server.js) trailing block. -/
theorem c5_amended_witness :
    parseA2SInfo ([255, 255, 255, 255, 65]
        ++ (asciiBytes "n" ++ 0 :: (asciiBytes "m" ++ 0 ::
            (asciiBytes "f" ++ 0 :: (asciiBytes "g" ++ 0 :: [1, 2, 3])))))
      = { name := asciiBytes "n", map := asciiBytes "m",
          folder := asciiBytes "f", game := asciiBytes "g", players := 0,
          maxPlayers := 0, protocol := none, serverType := none,
          environment := none } ∧
    parseServerInfo ([255, 255, 255, 255, 73, 9]
        ++ (asciiBytes "n" ++ 0 :: (asciiBytes "m" ++ 0 ::
            (asciiBytes "f" ++ 0 :: (asciiBytes "g" ++ 0 :: [1, 2])))))
      = Except.ok psSentinel :=
  ⟨c5_amended.1 [255, 255, 255, 255, 65] (asciiBytes "n") (asciiBytes "m")
      (asciiBytes "f") (asciiBytes "g") [1, 2, 3] (by decide) (by decide)
      (by decide) (by decide) (by decide) (by decide),
   c5_amended.2 [255, 255, 255, 255, 73, 9] (asciiBytes "n") (asciiBytes "m")
      (asciiBytes "f") (asciiBytes "g") [1, 2] (by decide) (by decide)
      (by decide) (by decide) (by decide) (by decide) (by decide)⟩

/-! ## Claim C4: raw wire entries -/

/-- With fewer than 10 bytes between the offset and the end of the buffer no
complete entry fits, so the part_000 loop - which never breaks, only skips -
produces nothing from there on. -/
theorem qpLoop_short : ∀ (n : Nat) (data : List Nat) (offset : Nat),
    data.length < offset + 10 → parseA2SPlayersLoop data n offset = [] := by
  intro n
  induction n with
  | zero => intro data offset h; rfl
  | succ m ih =>
    intro data offset h
    simp only [parseA2SPlayersLoop]
    split
    · split
      · rename_i hlt hcnd
        exfalso
        omega
      · exact ih data _ (by omega)
    · rfl

/-- A truncated final entry - the part_000 loop advances fewer than 8 bytes
short of the buffer end - yields nothing from the loop (the advance uses the
decoded name's UTF-16 length, as in the code). -/
theorem qpLoop_trunc (n : Nat) (data : List Nat) (offset : Nat)
    (h : data.length < offset + 2
      + (utf16Units (readStrBytes data (offset + 1))).length + 8) :
    parseA2SPlayersLoop data n offset = [] := by
  cases n with
  | zero => rfl
  | succ m =>
    simp only [parseA2SPlayersLoop]
    split
    · split
      · rename_i hlt hcnd
        exfalso
        omega
      · exact qpLoop_short m data _ (by omega)
    · rfl

/-- A truncated final entry makes the server.js loop break at once. -/
theorem spLoop_trunc (n : Nat) (data : List Nat) (offset : Nat)
    (h : data.length < offset + 2 + (readStrBytes data (offset + 1)).length + 8) :
    parsePlayersLoop data n offset = [] := by
  cases n with
  | zero => rfl
  | succ m =>
    simp only [parsePlayersLoop]
    split
    · split
      · rfl
      · rename_i hlt hcnd
        exfalso
        omega
    · rfl

/-- Restatement of the truncation condition when the loop sits exactly at
the start of the trailing fragment of the buffer. -/
theorem qpLoop_tail_nil (pre2 tail : List Nat) (m : Nat)
    (htail : tail.length < 2
      + (utf16Units ((tail.drop 1).takeWhile (fun b => b != 0))).length + 8) :
    parseA2SPlayersLoop (pre2 ++ tail) m pre2.length = [] := by
  apply qpLoop_trunc
  have hstr : readStrBytes (pre2 ++ tail) (pre2.length + 1)
      = (tail.drop 1).takeWhile (fun b => b != 0) := by
    unfold readStrBytes
    rw [drop_append_len pre2 tail 1]
  rw [hstr]
  simp only [List.length_append]
  omega

/-- Server.js version of the tail stop. -/
theorem spLoop_tail_nil (pre2 tail : List Nat) (m : Nat)
    (htail : tail.length < 2 + ((tail.drop 1).takeWhile (fun b => b != 0)).length + 8) :
    parsePlayersLoop (pre2 ++ tail) m pre2.length = [] := by
  apply spLoop_trunc
  have hstr : readStrBytes (pre2 ++ tail) (pre2.length + 1)
      = (tail.drop 1).takeWhile (fun b => b != 0) := by
    unfold readStrBytes
    rw [drop_append_len pre2 tail 1]
  rw [hstr]
  simp only [List.length_append]
  omega

/-- The part_000 loop consumes a block of complete well-formed entries with
ASCII names - where the decoded length it advances by equals the byte
length - one by one, parsing each exactly, and continues at the offset right
after the block with the remaining fuel. -/
theorem qpLoop_consume :
    ∀ (es : List RawEntry) (pre rest : List Nat) (m : Nat),
      (∀ e ∈ es, entryWF e) →
      (∀ e ∈ es, ∀ x ∈ e.nameB, x < 128) →
      parseA2SPlayersLoop (pre ++ (es.flatMap encEntry ++ rest))
          (es.length + m) pre.length
        = es.map entryP
          ++ parseA2SPlayersLoop (pre ++ (es.flatMap encEntry ++ rest)) m
              (pre.length + (es.flatMap encEntry).length) := by
  intro es
  induction es with
  | nil =>
    intro pre rest m hwf hascii
    simp
  | cons e es ih =>
    intro pre rest m hwf hascii
    obtain ⟨hnm, hsc, hdu⟩ := hwf e (by simp)
    have hwf' : ∀ x ∈ es, entryWF x := fun x hx => hwf x (by simp [hx])
    have hascii' : ∀ x ∈ es, ∀ y ∈ x.nameB, y < 128 :=
      fun x hx => hascii x (by simp [hx])
    have hau : utf16Units e.nameB = e.nameB :=
      utf16Units_ascii e.nameB (hascii e (by simp))
    have hfuel : (e :: es).length + m = (es.length + m) + 1 := by
      simp only [List.length_cons]
      omega
    rw [hfuel]
    simp only [List.flatMap_cons]
    have hBlen : (pre ++ ((encEntry e ++ es.flatMap encEntry) ++ rest)).length
        = pre.length + (e.nameB.length + 10)
          + ((es.flatMap encEntry).length + rest.length) := by
      simp only [List.length_append, encEntry, List.length_cons]
      omega
    have eIdx : byteD (pre ++ ((encEntry e ++ es.flatMap encEntry) ++ rest))
        pre.length = e.idx := by
      have hc : pre ++ ((encEntry e ++ es.flatMap encEntry) ++ rest)
          = pre ++ e.idx :: ((e.nameB ++ 0 :: (e.scoreB ++ e.durB))
              ++ (es.flatMap encEntry ++ rest)) := by
        simp [encEntry, List.append_assoc]
      rw [hc]
      exact byteD_at pre e.idx _
    have eName : readStrBytes (pre ++ ((encEntry e ++ es.flatMap encEntry) ++ rest))
        (pre.length + 1) = e.nameB := by
      have hc : pre ++ ((encEntry e ++ es.flatMap encEntry) ++ rest)
          = (pre ++ [e.idx]) ++ (e.nameB ++ 0 :: (e.scoreB
              ++ (e.durB ++ (es.flatMap encEntry ++ rest)))) := by
        simp [encEntry, List.append_assoc]
      have hl : (pre ++ [e.idx]).length = pre.length + 1 := by simp
      rw [hc, ← hl]
      exact readStr_at _ _ _ hnm
    have eScore : readI32 (pre ++ ((encEntry e ++ es.flatMap encEntry) ++ rest))
        (pre.length + 1 + e.nameB.length + 1) = int32Of e.scoreB := by
      have hc : pre ++ ((encEntry e ++ es.flatMap encEntry) ++ rest)
          = (pre ++ [e.idx] ++ e.nameB ++ [0]) ++ (e.scoreB
              ++ (e.durB ++ (es.flatMap encEntry ++ rest))) := by
        simp [encEntry, List.append_assoc]
      have hl : (pre ++ [e.idx] ++ e.nameB ++ [0]).length
          = pre.length + 1 + e.nameB.length + 1 := by
        simp only [List.length_append, List.length_cons, List.length_nil]
        try omega
      rw [hc, ← hl]
      exact readI32_at _ _ _ hsc
    have eDur : le32 (pre ++ ((encEntry e ++ es.flatMap encEntry) ++ rest))
        (pre.length + 1 + e.nameB.length + 1 + 4) = le32Of e.durB := by
      have hc : pre ++ ((encEntry e ++ es.flatMap encEntry) ++ rest)
          = (pre ++ [e.idx] ++ e.nameB ++ [0] ++ e.scoreB) ++ (e.durB
              ++ (es.flatMap encEntry ++ rest)) := by
        simp [encEntry, List.append_assoc]
      have hl : (pre ++ [e.idx] ++ e.nameB ++ [0] ++ e.scoreB).length
          = pre.length + 1 + e.nameB.length + 1 + 4 := by
        simp only [List.length_append, List.length_cons, List.length_nil, hsc]
        try omega
      rw [hc, ← hl]
      exact le32_at _ _ _ hdu
    simp only [parseA2SPlayersLoop]
    split
    · rw [eName, hau]
      split
      · rw [eIdx, eScore, eDur]
        have hOff : pre.length + 1 + e.nameB.length + 1 + 8
            = (pre ++ encEntry e).length := by
          simp only [List.length_append, encEntry, List.length_cons]
          omega
        have hB2 : pre ++ ((encEntry e ++ es.flatMap encEntry) ++ rest)
            = (pre ++ encEntry e) ++ (es.flatMap encEntry ++ rest) := by
          simp [List.append_assoc]
        rw [hOff, hB2, ih (pre ++ encEntry e) rest m hwf' hascii']
        have hOff2 : (pre ++ encEntry e).length + (es.flatMap encEntry).length
            = pre.length + (encEntry e ++ es.flatMap encEntry).length := by
          simp only [List.length_append]
          omega
        rw [hOff2]
        simp [entryP]
      · rename_i hlt hcnd
        exfalso
        apply hcnd
        rw [hBlen]
        omega
    · rename_i hlt
      exfalso
      apply hlt
      rw [hBlen]
      omega

/-- The server.js loop consumes a block of complete well-formed entries,
keeping - trimmed and normalised - exactly those whose raw name is
non-empty, and continues after the block with the remaining fuel. -/
theorem spLoop_consume :
    ∀ (es : List RawEntry) (pre rest : List Nat) (m : Nat),
      (∀ e ∈ es, entryWF e) →
      parsePlayersLoop (pre ++ (es.flatMap encEntry ++ rest))
          (es.length + m) pre.length
        = (es.filter (fun x => !(utf16Units x.nameB).isEmpty)).map entryS
          ++ parsePlayersLoop (pre ++ (es.flatMap encEntry ++ rest)) m
              (pre.length + (es.flatMap encEntry).length) := by
  intro es
  induction es with
  | nil =>
    intro pre rest m hwf
    simp
  | cons e es ih =>
    intro pre rest m hwf
    obtain ⟨hnm, hsc, hdu⟩ := hwf e (by simp)
    have hwf' : ∀ x ∈ es, entryWF x := fun x hx => hwf x (by simp [hx])
    have hfuel : (e :: es).length + m = (es.length + m) + 1 := by
      simp only [List.length_cons]
      omega
    rw [hfuel]
    simp only [List.flatMap_cons]
    have hBlen : (pre ++ ((encEntry e ++ es.flatMap encEntry) ++ rest)).length
        = pre.length + (e.nameB.length + 10)
          + ((es.flatMap encEntry).length + rest.length) := by
      simp only [List.length_append, encEntry, List.length_cons]
      omega
    have eIdx : byteD (pre ++ ((encEntry e ++ es.flatMap encEntry) ++ rest))
        pre.length = e.idx := by
      have hc : pre ++ ((encEntry e ++ es.flatMap encEntry) ++ rest)
          = pre ++ e.idx :: ((e.nameB ++ 0 :: (e.scoreB ++ e.durB))
              ++ (es.flatMap encEntry ++ rest)) := by
        simp [encEntry, List.append_assoc]
      rw [hc]
      exact byteD_at pre e.idx _
    have eName : readStrBytes (pre ++ ((encEntry e ++ es.flatMap encEntry) ++ rest))
        (pre.length + 1) = e.nameB := by
      have hc : pre ++ ((encEntry e ++ es.flatMap encEntry) ++ rest)
          = (pre ++ [e.idx]) ++ (e.nameB ++ 0 :: (e.scoreB
              ++ (e.durB ++ (es.flatMap encEntry ++ rest)))) := by
        simp [encEntry, List.append_assoc]
      have hl : (pre ++ [e.idx]).length = pre.length + 1 := by simp
      rw [hc, ← hl]
      exact readStr_at _ _ _ hnm
    have eScore : readI32 (pre ++ ((encEntry e ++ es.flatMap encEntry) ++ rest))
        (pre.length + 1 + e.nameB.length + 1) = int32Of e.scoreB := by
      have hc : pre ++ ((encEntry e ++ es.flatMap encEntry) ++ rest)
          = (pre ++ [e.idx] ++ e.nameB ++ [0]) ++ (e.scoreB
              ++ (e.durB ++ (es.flatMap encEntry ++ rest))) := by
        simp [encEntry, List.append_assoc]
      have hl : (pre ++ [e.idx] ++ e.nameB ++ [0]).length
          = pre.length + 1 + e.nameB.length + 1 := by
        simp only [List.length_append, List.length_cons, List.length_nil]
        try omega
      rw [hc, ← hl]
      exact readI32_at _ _ _ hsc
    have eDur : le32 (pre ++ ((encEntry e ++ es.flatMap encEntry) ++ rest))
        (pre.length + 1 + e.nameB.length + 1 + 4) = le32Of e.durB := by
      have hc : pre ++ ((encEntry e ++ es.flatMap encEntry) ++ rest)
          = (pre ++ [e.idx] ++ e.nameB ++ [0] ++ e.scoreB) ++ (e.durB
              ++ (es.flatMap encEntry ++ rest)) := by
        simp [encEntry, List.append_assoc]
      have hl : (pre ++ [e.idx] ++ e.nameB ++ [0] ++ e.scoreB).length
          = pre.length + 1 + e.nameB.length + 1 + 4 := by
        simp only [List.length_append, List.length_cons, List.length_nil, hsc]
        try omega
      rw [hc, ← hl]
      exact le32_at _ _ _ hdu
    simp only [parsePlayersLoop]
    split
    · rw [eName]
      split
      · rename_i hlt hcnd
        exfalso
        rw [hBlen] at hcnd
        omega
      · rw [eIdx, eScore, eDur]
        have hOff : pre.length + 1 + e.nameB.length + 1 + 8
            = (pre ++ encEntry e).length := by
          simp only [List.length_append, encEntry, List.length_cons]
          omega
        have hB2 : pre ++ ((encEntry e ++ es.flatMap encEntry) ++ rest)
            = (pre ++ encEntry e) ++ (es.flatMap encEntry ++ rest) := by
          simp [List.append_assoc]
        rw [hOff, hB2, ih (pre ++ encEntry e) rest m hwf']
        have hOff2 : (pre ++ encEntry e).length + (es.flatMap encEntry).length
            = pre.length + (encEntry e ++ es.flatMap encEntry).length := by
          simp only [List.length_append]
          omega
        rw [hOff2, List.filter_cons]
        by_cases hnil : (utf16Units e.nameB).isEmpty = true
        · simp [hnil]
        · simp [hnil, entryS]
    · rename_i hlt
      exfalso
      apply hlt
      rw [hBlen]
      omega

/-- C4 counterexample: a player response with a valid server.js header,
count 2, one complete entry (whose name is empty) and a truncated second
entry.  The buffer contains k = 1 complete entry, but parsePlayerInfo
returns the empty list - the complete entry is dropped because its name is
empty - not "exactly the k complete entries". -/
theorem c4_counterexample :
    parsePlayerInfo [255, 255, 255, 255, 68, 0, 2,
        5, 0, 1, 0, 0, 0, 0, 0, 0, 0,
        6, 65, 0, 1, 2, 3] = Except.ok [] := by
  decide

/-- C4 amended: for a player-response buffer holding k complete well-formed
entries whose names are ASCII (part_000 advances past a name by the decoded
string's UTF-16 length, which equals the byte length exactly for
one-unit-per-byte names), a count byte n with k < n, and a truncated final
entry (fewer than 8 bytes after its name), part_000's parseA2SPlayers
returns exactly the k complete entries (raw names, raw score / duration)
with no error; server.js parsePlayerInfo - whose offsets are byte-computed,
so its conjunct needs no ASCII restriction - also reports no error but
returns only those complete entries whose decoded raw name is non-empty,
with trimmed names and falsy-normalised durations. -/
theorem c4_amended :
    (∀ (hdr : List Nat) (count : Nat) (es : List RawEntry) (tail : List Nat),
       hdr.length = 5 → (∀ e ∈ es, entryWF e) →
       (∀ e ∈ es, ∀ x ∈ e.nameB, x < 128) → es.length < count →
       tail.length < 2
           + (utf16Units ((tail.drop 1).takeWhile (fun b => b != 0))).length + 8 →
       parseA2SPlayers (hdr ++ count :: (es.flatMap encEntry ++ tail))
         = es.map entryP) ∧
    (∀ (hdr : List Nat) (count : Nat) (es : List RawEntry) (tail : List Nat),
       hdr.length = 6 → byteD hdr 4 = 68 → (∀ e ∈ es, entryWF e) →
       es.length < count →
       tail.length < 2 + ((tail.drop 1).takeWhile (fun b => b != 0)).length + 8 →
       parsePlayerInfo (hdr ++ count :: (es.flatMap encEntry ++ tail))
         = Except.ok ((es.filter (fun x => !(utf16Units x.nameB).isEmpty)).map entryS)) := by
  constructor
  · intro hdr count es tail hh hwf hascii hcnt htail
    have hBlen : (hdr ++ count :: (es.flatMap encEntry ++ tail)).length
        = 6 + (es.flatMap encEntry).length + tail.length := by
      simp only [List.length_append, List.length_cons, hh]
      omega
    rw [parseA2SPlayers, if_neg (by omega)]
    have hcountAt : byteD (hdr ++ count :: (es.flatMap encEntry ++ tail)) 5
        = count := by
      rw [← hh]
      exact byteD_at hdr count _
    rw [hcountAt]
    have hgrp : hdr ++ count :: (es.flatMap encEntry ++ tail)
        = (hdr ++ [count]) ++ (es.flatMap encEntry ++ tail) := by
      simp
    have hpre : (hdr ++ [count]).length = 6 := by
      simp [hh]
    rw [hgrp, ← hpre]
    have heq := qpLoop_consume es (hdr ++ [count]) tail (count - es.length) hwf hascii
    have hm : es.length + (count - es.length) = count := by omega
    rw [hm] at heq
    rw [heq]
    have hre : (hdr ++ [count]) ++ (es.flatMap encEntry ++ tail)
        = ((hdr ++ [count]) ++ es.flatMap encEntry) ++ tail := by
      simp [List.append_assoc]
    have hlen0 : (hdr ++ [count]).length + (es.flatMap encEntry).length
        = ((hdr ++ [count]) ++ es.flatMap encEntry).length := by
      simp [List.length_append]
      omega
    rw [hre, hlen0, qpLoop_tail_nil _ tail _ htail, List.append_nil]
  · intro hdr count es tail hh htag hwf hcnt htail
    have hBlen : (hdr ++ count :: (es.flatMap encEntry ++ tail)).length
        = 7 + (es.flatMap encEntry).length + tail.length := by
      simp only [List.length_append, List.length_cons, hh]
      omega
    have htagB : byteD (hdr ++ count :: (es.flatMap encEntry ++ tail)) 4 = 68 := by
      rw [byteD_left hdr _ 4 (by omega)]
      exact htag
    have hc : ¬((hdr ++ count :: (es.flatMap encEntry ++ tail)).length < 6
        ∨ byteD (hdr ++ count :: (es.flatMap encEntry ++ tail)) 4 ≠ 68) := by
      rintro (h | h)
      · omega
      · exact h htagB
    rw [parsePlayerInfo, if_neg hc]
    have hcountAt : byteD (hdr ++ count :: (es.flatMap encEntry ++ tail)) 6
        = count := by
      rw [← hh]
      exact byteD_at hdr count _
    rw [hcountAt]
    have hgrp : hdr ++ count :: (es.flatMap encEntry ++ tail)
        = (hdr ++ [count]) ++ (es.flatMap encEntry ++ tail) := by
      simp
    have hpre : (hdr ++ [count]).length = 7 := by
      simp [hh]
    rw [hgrp, ← hpre]
    have heq := spLoop_consume es (hdr ++ [count]) tail (count - es.length) hwf
    have hm : es.length + (count - es.length) = count := by omega
    rw [hm] at heq
    rw [heq]
    have hre : (hdr ++ [count]) ++ (es.flatMap encEntry ++ tail)
        = ((hdr ++ [count]) ++ es.flatMap encEntry) ++ tail := by
      simp [List.append_assoc]
    have hlen0 : (hdr ++ [count]).length + (es.flatMap encEntry).length
        = ((hdr ++ [count]) ++ es.flatMap encEntry).length := by
      simp [List.length_append]
      omega
    rw [hre, hlen0, spLoop_tail_nil _ tail _ htail, List.append_nil]

/-- Concrete instance of C4's amended statement: one complete entry with
name "B", score 1 and duration bits 0x40000000, count 2 and a 1-byte
truncated tail. -/
theorem c4_amended_witness :
    parseA2SPlayers ([255, 255, 255, 255, 65]
        ++ 2 :: ([RawEntry.mk 3 [66] [1, 0, 0, 0] [0, 0, 0, 64]].flatMap encEntry
            ++ [9]))
      = [RawEntry.mk 3 [66] [1, 0, 0, 0] [0, 0, 0, 64]].map entryP ∧
    parsePlayerInfo ([255, 255, 255, 255, 68, 0]
        ++ 2 :: ([RawEntry.mk 3 [66] [1, 0, 0, 0] [0, 0, 0, 64]].flatMap encEntry
            ++ [9]))
      = Except.ok (([RawEntry.mk 3 [66] [1, 0, 0, 0] [0, 0, 0, 64]].filter
          (fun x => !(utf16Units x.nameB).isEmpty)).map entryS) :=
  ⟨c4_amended.1 [255, 255, 255, 255, 65] 2
      [RawEntry.mk 3 [66] [1, 0, 0, 0] [0, 0, 0, 64]] [9]
      (by decide) (by decide) (by decide) (by decide) (by decide),
   c4_amended.2 [255, 255, 255, 255, 68, 0] 2
      [RawEntry.mk 3 [66] [1, 0, 0, 0] [0, 0, 0, 64]] [9]
      (by decide) (by decide) (by decide) (by decide) (by decide)⟩

/-! ## Claim C9 -/

/-- Every entry the server.js loop emits has its name equal to the trim of a
non-empty raw name (the push at lines 247-254 is guarded by the raw name
being non-empty and stores `name.trim()`). -/
theorem spLoop_names (data : List Nat) :
    ∀ (n offset : Nat) (e : PlayerEntry), e ∈ parsePlayersLoop data n offset →
      ∃ raw : List Nat, raw ≠ [] ∧ e.name = jsTrim raw := by
  intro n
  induction n with
  | zero =>
    intro offset e he
    simp [parsePlayersLoop] at he
  | succ m ih =>
    intro offset e he
    simp only [parsePlayersLoop] at he
    split at he
    · split at he
      · simp at he
      · split at he
        · exact ih _ e he
        · rename_i hnil
          rcases List.mem_cons.mp he with h | h
          · refine ⟨utf16Units (readStrBytes data (offset + 1)), ?_, ?_⟩
            · intro hcontra
              apply hnil
              rw [hcontra]
              rfl
            · rw [h]
          · exact ih _ e h
    · simp at he

/-- C9 counterexample: an entry whose raw name is a single space passes the
non-empty filter, but its stored, trimmed name is the empty string - so the
decoder's output does contain an entry with an empty name, contradicting
the claim. -/
theorem c9_counterexample :
    parsePlayerInfo [255, 255, 255, 255, 68, 0, 1, 9, 32, 0, 5, 0, 0, 0, 0, 0, 0, 0]
      = Except.ok [{ index := 9, name := [], score := 5, duration := 0 }] := by
  decide

/-- C9 amended: every entry returned by server.js parsePlayerInfo has its
name equal to the trim of some non-empty raw name - entries with empty raw
names are dropped, names are stored trimmed - but a whitespace-only raw
name survives the filter and trims to the empty string, so a returned name
can still be empty. -/
theorem c9_amended :
    ∀ (data : List Nat) (ps : List PlayerEntry),
      parsePlayerInfo data = Except.ok ps →
      ∀ e ∈ ps, ∃ raw : List Nat, raw ≠ [] ∧ e.name = jsTrim raw := by
  intro data ps hp e he
  rw [parsePlayerInfo] at hp
  split at hp
  · exact absurd hp (by simp)
  · have hps : ps = parsePlayersLoop data (byteD data 6) 7 := by
      have := hp
      injection this with h
      exact h.symm
    rw [hps] at he
    exact spLoop_names data _ _ e he

/-- Concrete instance of C9's amended statement: the single entry parsed
from a one-player response with name "A". -/
theorem c9_amended_witness :
    ∃ raw : List Nat, raw ≠ [] ∧
      ({ index := 7, name := asciiBytes "A", score := 1,
         duration := 0 } : PlayerEntry).name = jsTrim raw :=
  c9_amended [255, 255, 255, 255, 68, 0, 1, 7, 65, 0, 1, 0, 0, 0, 0, 0, 0, 0]
    [{ index := 7, name := asciiBytes "A", score := 1, duration := 0 }]
    (by decide)
    { index := 7, name := asciiBytes "A", score := 1, duration := 0 }
    (by decide)
